import Mathlib

/-!
# Verification of the FlashOrca ally-devnet gateway (`server/siws.py`)

A shallow embedding of the SIWS authentication endpoints, the byte coercer,
the method policy and the JSON-RPC proxy of `src/server/siws.py`, together
with theorems settling the frozen claims about the natural-language spec.

JSON values are modelled by the inductive `Json`; Python exceptions that
escape a handler (and would surface as an HTTP 500) are modelled by `Except
PyError`; byte strings are `List Nat` with every entry below 256.  The
Ed25519 primitive `VerifyKey(pk).verify(msg, sig)` is kept abstract as a
boolean oracle passed explicitly to the verification functions.
-/

set_option maxHeartbeats 1000000

namespace Siws

/-- JSON-representable Python values as they arrive from `request.get_json`.
Numbers are restricted to integers (no claim involves floats). -/
inductive Json where
  | null
  | bool (b : Bool)
  | num (n : Int)
  | str (s : String)
  | arr (xs : List Json)
  | obj (kvs : List (String × Json))

/-- Kinds of Python exceptions the embedded code can raise.  `cannotCoerce`
is the deliberate `TypeError("Cannot coerce to bytes: ...")` signal of
`_coerce_to_bytes` (the spec's `UnsupportedEncoding`); the others are
uncaught exceptions that would surface as an HTTP 500. -/
inductive PyError where
  | cannotCoerce
  | typeError
  | valueError
  | attributeError
  | indexError
deriving DecidableEq

/-- A Python computation that may raise. -/
abbrev Py (α : Type) := Except PyError α

/-- `d[k]` / `d.get(k)` on a JSON object (Python dicts from JSON have unique
keys; the first binding wins). -/
def getKey (kvs : List (String × Json)) (k : String) : Option Json :=
  (kvs.find? (fun kv => kv.1 == k)).map (fun kv => kv.2)

/-- Python truthiness of a JSON value. -/
def jsonTruthy : Json → Bool
  | .null => false
  | .bool b => b
  | .num n => n != 0
  | .str s => s.length != 0
  | .arr xs => !xs.isEmpty
  | .obj kvs => !kvs.isEmpty

/-- `v is None` for JSON-parsed values. -/
def Json.isNull : Json → Bool
  | .null => true
  | _ => false

/-! ## Base64 (Python `base64.b64decode(s, validate=True)` / `b64encode`) -/

/-- The standard base64 alphabet. -/
def b64Alphabet : List Char :=
  "ABCDEFGHIJKLMNOPQRSTUVWXYZabcdefghijklmnopqrstuvwxyz0123456789+/".toList

/-- Character of a 6-bit value. -/
def b64Char (i : Nat) : Char := b64Alphabet.getD i 'A'

/-- 6-bit value of an alphabet character, `none` for anything else. -/
def b64Index (c : Char) : Option Nat := b64Alphabet.findIdx? (fun d => d == c)

/-- `base64.b64encode`: 3-byte groups become 4 characters, a trailing group
of 1 or 2 bytes is padded with `=`. -/
def b64encodeList : List Nat → List Char
  | [] => []
  | [b1] => [b64Char (b1 / 4), b64Char (b1 % 4 * 16), '=', '=']
  | [b1, b2] => [b64Char (b1 / 4), b64Char (b1 % 4 * 16 + b2 / 16),
                 b64Char (b2 % 16 * 4), '=']
  | b1 :: b2 :: b3 :: rest =>
      b64Char (b1 / 4) :: b64Char (b1 % 4 * 16 + b2 / 16) ::
      b64Char (b2 % 16 * 4 + b3 / 64) :: b64Char (b3 % 64) :: b64encodeList rest

/-- `base64.b64encode(bs).decode()`. -/
def b64encode (bs : List Nat) : String := String.mk (b64encodeList bs)

/-- Strict base64 decoding of a character list: total length a multiple of
four, data characters from the alphabet, at most two `=` of padding and only
at the very end — the behaviour of `base64.b64decode(s, validate=True)`
(which checks the regex `[A-Za-z0-9+/]*={0,2}` and correct padding). -/
def b64decodeList : List Char → Option (List Nat)
  | [] => some []
  | c1 :: c2 :: c3 :: c4 :: rest =>
      match b64Index c1, b64Index c2 with
      | some i1, some i2 =>
          if c3 = '=' ∧ c4 = '=' ∧ rest = [] then
            some [i1 * 4 + i2 / 16]
          else
            match b64Index c3 with
            | some i3 =>
                if c4 = '=' ∧ rest = [] then
                  some [i1 * 4 + i2 / 16, i2 % 16 * 16 + i3 / 4]
                else
                  match b64Index c4 with
                  | some i4 =>
                      (b64decodeList rest).map
                        (fun tl => (i1 * 4 + i2 / 16) :: (i2 % 16 * 16 + i3 / 4) ::
                                   (i3 % 4 * 64 + i4) :: tl)
                  | none => none
            | none => none
      | _, _ => none
  | _ => none

/-- `base64.b64decode(s, validate=True)`. -/
def b64decode (s : String) : Option (List Nat) := b64decodeList s.data

/-- `base64.b64decode(s)` without `validate`: characters outside the
alphabet (and stray padding) are discarded before decoding. -/
def b64decodeLenient (s : String) : Option (List Nat) :=
  b64decodeList (s.data.filter (fun c => (b64Index c).isSome || c == '='))

/-! ## Base58 (the `base58` package, Bitcoin alphabet) -/

/-- The Bitcoin base58 alphabet. -/
def b58Alphabet : List Char :=
  "123456789ABCDEFGHJKLMNPQRSTUVWXYZabcdefghijkmnopqrstuvwxyz".toList

/-- Digit value of a base58 character. -/
def b58DigitOf (c : Char) : Option Nat := b58Alphabet.findIdx? (fun d => d == c)

/-- `base58.b58decode_int`: fold the digits into a natural number, failing on
any character outside the alphabet. -/
def b58decInt : List Char → Nat → Option Nat
  | [], acc => some acc
  | c :: cs, acc =>
      match b58DigitOf c with
      | some d => b58decInt cs (acc * 58 + d)
      | none => none

/-- Leading `'1'` characters (each contributes one leading zero byte). -/
def countLeadingOnes : List Char → Nat
  | [] => 0
  | c :: cs => if c = '1' then countLeadingOnes cs + 1 else 0

/-- Big-endian byte expansion with explicit fuel (structural recursion keeps
the definition kernel-reducible; `n` itself is always enough fuel because
`n / 256 < n` for positive `n`). -/
def natToBytesBEAux : Nat → Nat → List Nat
  | _, 0 => []
  | 0, _ => []
  | fuel + 1, n => natToBytesBEAux fuel (n / 256) ++ [n % 256]

/-- Minimal big-endian byte representation of a natural number (`int.to_bytes`
with the `bit_length`-derived size; zero gives the empty sequence). -/
def natToBytesBE (n : Nat) : List Nat := natToBytesBEAux n n

/-- `base58.b58decode`: leading-`'1'` zero bytes followed by the big-endian
bytes of the decoded integer. -/
def b58decode (s : String) : Option (List Nat) :=
  match b58decInt s.data 0 with
  | none => none
  | some acc => some (List.replicate (countLeadingOnes s.data) 0 ++ natToBytesBE acc)

/-! ## Hex (Python `bytes.fromhex` / `bytes.hex`) -/

/-- Value of a hexadecimal digit. -/
def hexDigitVal (c : Char) : Option Nat :=
  if '0' ≤ c ∧ c ≤ '9' then some (c.toNat - '0'.toNat)
  else if 'a' ≤ c ∧ c ≤ 'f' then some (c.toNat - 'a'.toNat + 10)
  else if 'A' ≤ c ∧ c ≤ 'F' then some (c.toNat - 'A'.toNat + 10)
  else none

/-- Decode pairs of hex digits. -/
def hexPairs : List Char → Option (List Nat)
  | [] => some []
  | c1 :: c2 :: rest =>
      match hexDigitVal c1, hexDigitVal c2 with
      | some h, some l => (hexPairs rest).map (fun tl => (h * 16 + l) :: tl)
      | _, _ => none
  | _ => none

/-- `bytes.fromhex` (spaces between bytes are skipped, as in CPython). -/
def hexDecode (s : String) : Option (List Nat) :=
  hexPairs (s.data.filter (fun c => c ≠ ' '))

/-- Lowercase hex digit character. -/
def hexDigitChar (n : Nat) : Char := "0123456789abcdef".toList.getD n '0'

/-- `bytes.hex()`. -/
def hexEncode (bs : List Nat) : String :=
  String.mk (bs.foldr (fun b acc => hexDigitChar (b / 16) :: hexDigitChar (b % 16) :: acc) [])

/-! ## UTF-8 (`str.encode("utf-8")`) -/

/-- UTF-8 bytes of one character. -/
def utf8Char (c : Char) : List Nat :=
  let n := c.toNat
  if n < 0x80 then [n]
  else if n < 0x800 then [0xC0 + n / 64, 0x80 + n % 64]
  else if n < 0x10000 then [0xE0 + n / 4096, 0x80 + n / 64 % 64, 0x80 + n % 64]
  else [0xF0 + n / 262144, 0x80 + n / 4096 % 64, 0x80 + n / 64 % 64, 0x80 + n % 64]

/-- `s.encode("utf-8")`. -/
def utf8Bytes (s : String) : List Nat :=
  s.data.foldr (fun c acc => utf8Char c ++ acc) []

/-! ## Python `int(x)` -/

/-- `int(s)` on the trimmed digits of a decimal literal. -/
def decDigits : List Char → Option Nat
  | [] => none
  | cs => cs.foldl (fun acc c =>
      match acc with
      | none => none
      | some a => if '0' ≤ c ∧ c ≤ '9' then some (a * 10 + (c.toNat - '0'.toNat)) else none)
      (some 0)

/-- Strip surrounding whitespace (list-based so that the kernel can
evaluate it). -/
def pyStrip (cs : List Char) : List Char :=
  ((cs.dropWhile Char.isWhitespace).reverse.dropWhile Char.isWhitespace).reverse

/-- `int(s)` for a string: optional surrounding whitespace, optional sign,
then decimal digits. -/
def pyIntOfString (s : String) : Option Int :=
  match pyStrip s.data with
  | '-' :: cs => (decDigits cs).map (fun n => -(n : Int))
  | '+' :: cs => (decDigits cs).map (fun n => (n : Int))
  | cs => (decDigits cs).map (fun n => (n : Int))

/-- `int(x)` on a JSON value: `none` means the conversion raises. -/
def pyInt : Json → Option Int
  | .num n => some n
  | .bool b => some (if b then 1 else 0)
  | .str s => pyIntOfString s
  | _ => none

/-! ## `_coerce_to_bytes` -/

/-- `bytes(int(x) & 0xFF for x in xs)`: a failing `int(x)` raises out of
`_coerce_to_bytes` (these generator expressions are not guarded by any
`try`). -/
def bytesFromInts : List Json → Py (List Nat)
  | [] => .ok []
  | x :: xs =>
      match pyInt x with
      | none => .error .typeError
      | some n => (bytesFromInts xs).map (fun tl => (n.emod 256).toNat :: tl)

/-- The guarded sparse-map branch
`sorted((int(k), int(v[k])) for k in v.keys())` followed by `bytes([...])`:
`none` when any key or value fails `int(...)` or a value is outside
`0..255` (then `bytes(list)` raises `ValueError`, caught by the `except`). -/
def sparseBytes (kvs : List (String × Json)) : Option (List Nat) :=
  match kvs.mapM (fun kv => do
      let ki ← pyIntOfString kv.1
      let vi ← pyInt kv.2
      pure (ki, vi)) with
  | none => none
  | some pairs =>
      if pairs.all (fun p => 0 ≤ p.2 ∧ p.2 < 256) then
        some ((pairs.mergeSort (fun p q => p.1 < q.1 ∨ (p.1 = q.1 ∧ p.2 ≤ q.2))).map
          (fun p => p.2.toNat))
      else none

/-- `_coerce_to_bytes(v)` on JSON-representable input.
String input tries strict base64, then base58, then hex, first success wins,
with UTF-8 encoding as a non-failing fallback.  Dict input tries the Node
Buffer shape (a list under `"data"`), then the sparse integer-keyed shape.
Everything else falls back to Python `bytes(v)`: a boolean `b` yields
`int(b)` zero bytes, a non-negative integer `n` yields `n` zero bytes, and a
negative integer (`ValueError`, caught) or unhandled dict raises the
deliberate `TypeError("Cannot coerce to bytes: ...")`, modelled as
`PyError.cannotCoerce`. -/
def coerce_to_bytes (v : Json) : Py (List Nat) :=
  match v with
  | .null => .ok []
  | .str s =>
      match b64decode s with
      | some bs => .ok bs
      | none =>
          match b58decode s with
          | some bs => .ok bs
          | none =>
              match hexDecode s with
              | some bs => .ok bs
              | none => .ok (utf8Bytes s)
  | .obj kvs =>
      match getKey kvs "data" with
      | some (.arr xs) => bytesFromInts xs
      | _ =>
          match sparseBytes kvs with
          | some bs => .ok bs
          | none => .error .cannotCoerce
  | .arr xs => bytesFromInts xs
  | .bool b => .ok (List.replicate (if b then 1 else 0) 0)
  | .num n => if 0 ≤ n then .ok (List.replicate n.toNat 0) else .error .cannotCoerce

/-! ## `_is_allowed_method` -/

/-- The process-wide method policy configuration: `RPC_METHOD_BLOCKLIST`,
and `RPC_METHOD_ALLOWLIST` when (and only when) the allowlist environment
variable was provided (`allowEnv = none` is the default-open mode). -/
structure MethodPolicy where
  blocklist : List String
  allowEnv : Option (List String)

/-- `s.startswith(pre)` (list-based so that the kernel can evaluate it). -/
def strStartsWith (s pre : String) : Bool := pre.data.isPrefixOf s.data

/-- `m in <set of strings>` for a JSON value. -/
def jsonInStrSet (m : Json) (set : List String) : Bool :=
  match m with
  | .str s => set.contains s
  | _ => false

/-- `_is_allowed_method(method_name)`.  The argument is kept as a JSON value
because `rpc_proxy` feeds it whatever the request carried: a non-string
method in default-open mode raises `AttributeError` at
`method_name.startswith("get")`. -/
def is_allowed_method (cfg : MethodPolicy) (m : Json) : Py Bool :=
  if jsonInStrSet m cfg.blocklist then .ok false
  else
    match cfg.allowEnv with
    | some allow => .ok (jsonInStrSet m allow)
    | none =>
        match m with
        | .str s => .ok (strStartsWith s "get" || s == "simulateTransaction" ||
                         s == "sendTransaction" || s == "requestAirdrop")
        | _ => .error .attributeError

/-! ## SIWS verification (`/api/siws/verify`) and the legacy flow -/

/-- The per-session challenge record `session["siws"]` (the `issued_at`
ISO string is never read by `verify` and is omitted). -/
structure SiwsSession where
  nonce : String
  ts : Int

/-- The fields of the `/api/siws/verify` request body that the handler
reads: `data["input"]["nonce"]`, `data["output"]["account"]["address"]`,
`data["publicKey"]`, `data["output"]["address"]`,
`data["output"]["signedMessage"]`, `data["output"]["signature"]`.
`none` models an absent key (`dict.get` returning `None`). -/
structure SiwsBody where
  inputNonce : Option Json
  accountAddress : Option Json
  publicKey : Option Json
  outputAddress : Option Json
  signedMessage : Option Json
  signature : Option Json

/-- The handler's possible returns (each mapped to text/status by
`siwsHttp`). -/
inductive SiwsResult where
  | missingAddress
  | invalidNonce
  | invalidAddress
  | invalidSignature
  | badSignature
  | verified (addr : String)
deriving DecidableEq

/-- Python `a or b or c` (first truthy value, else the last). -/
def pyOr3 (a b c : Json) : Json :=
  if jsonTruthy a then a else if jsonTruthy b then b else c

/-- `not s or s["nonce"] != input_obj.get("nonce") or (int(time.time()) - s["ts"] > 300)`. -/
def nonceFails (sess : Option SiwsSession) (inputNonce : Option Json) (now : Int) : Bool :=
  match sess with
  | none => true
  | some s =>
      !(match inputNonce with
        | some (.str n) => s.nonce == n
        | _ => false) || decide (now - s.ts > 300)

/-- Characters after the last `':'` (`addr.split(":")[-1]`). -/
def lastAfterColon (cs : List Char) : List Char :=
  cs.foldl (fun acc c => if c = ':' then [] else acc ++ [c]) []

/-- `if ":" in addr_b58: addr_b58 = addr_b58.split(":")[-1]`. -/
def normalizeAddr (s : String) : String :=
  if s.data.contains ':' then String.mk (lastAfterColon s.data) else s

/-- The abstract Ed25519 primitive: `VerifyKey(pk).verify(msg, sig)`
succeeds iff the oracle returns `true` (it is only consulted with a 32-byte
key and a 64-byte signature, the lengths nacl insists on). -/
abbrev SigOracle := List Nat → List Nat → List Nat → Bool

/-- `/api/siws/verify`, following the source order: address presence, byte
coercion of `signedMessage`/`signature` (possible uncaught raise), nonce
freshness, scheme-tag stripping, base58 address decoding (any failure is
caught to `invalid address`, so a non-string address also lands there),
32-byte key check, 64-byte signature check, then the Ed25519 verify whose
failures are caught to `bad signature`.  On success the normalized address
is bound to the session and `"ok"` is returned. -/
def siws_verify (oracle : SigOracle) (sess : Option SiwsSession) (now : Int)
    (body : SiwsBody) : Py SiwsResult :=
  let addrVal := pyOr3 (body.accountAddress.getD .null) (body.publicKey.getD .null)
                       (body.outputAddress.getD .null)
  if !jsonTruthy addrVal then .ok .missingAddress
  else
    match coerce_to_bytes (body.signedMessage.getD .null) with
    | .error e => .error e
    | .ok sm =>
      match coerce_to_bytes (body.signature.getD .null) with
      | .error e => .error e
      | .ok sg =>
        if nonceFails sess body.inputNonce now then .ok .invalidNonce
        else
          match addrVal with
          | .str a =>
              match b58decode (normalizeAddr a) with
              | none => .ok .invalidAddress
              | some pk =>
                  if pk.length ≠ 32 then .ok .invalidAddress
                  else if sg.length ≠ 64 then .ok .invalidSignature
                  else if oracle pk sm sg then .ok (.verified (normalizeAddr a))
                  else .ok .badSignature
          | _ => .ok .invalidAddress

/-- HTTP body/status of a SIWS verification outcome (an escaped exception
becomes the framework's 500). -/
def siwsHttp : Py SiwsResult → String × Nat
  | .ok .missingAddress => ("missing address", 400)
  | .ok .invalidNonce => ("invalid nonce", 400)
  | .ok .invalidAddress => ("invalid address", 400)
  | .ok .invalidSignature => ("invalid signature", 400)
  | .ok .badSignature => ("bad signature", 400)
  | .ok (.verified _) => ("ok", 200)
  | .error _ => ("internal server error", 500)

/-- The legacy handler's possible returns. -/
inductive LegacyResult where
  | invalidNonce
  | badSignature
  | verified (addr : String)
deriving DecidableEq

/-- The server-reconstructed legacy message. -/
def legacyMessage (nonce : String) (ts : Int) (host : String) : String :=
  "Sign-in with Solana\nnonce=" ++ nonce ++ "\nissued_at=" ++ toString ts ++
    "\ndomain=" ++ host

/-- `/api/auth/verify`: nonce freshness against `session["legacy"]`, then
`VerifyKey(b58decode(pk)).verify(message, b64decode(sig))` with only
`BadSignatureError` caught — a base58 failure, wrong key length, base64
failure or wrong signature length raises out of the handler
(`PyError.valueError`, an HTTP 500). -/
def legacy_verify (oracle : SigOracle) (sess : Option (String × Int)) (now : Int)
    (host : String) (pk sig nonce : String) : Py LegacyResult :=
  match sess with
  | none => .ok .invalidNonce
  | some (n0, ts) =>
      if n0 ≠ nonce ∨ now - ts > 300 then .ok .invalidNonce
      else
        match b58decode pk with
        | none => .error .valueError
        | some key =>
            if key.length ≠ 32 then .error .valueError
            else
              match b64decodeLenient sig with
              | none => .error .valueError
              | some sg =>
                  if sg.length ≠ 64 then .error .valueError
                  else if oracle key (utf8Bytes (legacyMessage nonce ts host)) sg then
                    .ok (.verified pk)
                  else .ok .badSignature

/-- HTTP body/status of a legacy verification outcome. -/
def legacyHttp : Py LegacyResult → String × Nat
  | .ok .invalidNonce => ("invalid nonce", 400)
  | .ok .badSignature => ("bad signature", 400)
  | .ok (.verified _) => ("ok", 200)
  | .error _ => ("internal server error", 500)

/-- The SIWS request body carrying the legacy credentials over the
server-reconstructed message. -/
def legacyToSiwsBody (pk sig nonce msg : String) : SiwsBody :=
  { inputNonce := some (.str nonce)
    accountAddress := none
    publicKey := some (.str pk)
    outputAddress := none
    signedMessage := some (.str msg)
    signature := some (.str sig) }


/-! ## `_merge_signature_statuses` and the `/rpc` proxy -/

/-- An upstream HTTP response as `requests` exposes it: `ok` is the
truthiness of the `Response` object (`status_code < 400`; `if not r`
skips both `None` and non-OK responses), and `body` is the parsed JSON,
`none` when `.json()` raises. -/
structure Resp where
  ok : Bool
  status : Nat
  body : Option Json

/-- Substring test over character lists. -/
def listIsInfix (pat : List Char) : List Char → Bool
  | [] => pat.isEmpty
  | c :: tl => pat.isPrefixOf (c :: tl) || listIsInfix pat tl

/-- `k in container` (Python membership: key lookup for dicts, element
equality for lists, substring for strings, `TypeError` for anything
else). -/
def pyContains (container : Json) (k : String) : Py Bool :=
  match container with
  | .obj kvs => .ok (kvs.any (fun kv => kv.1 == k))
  | .arr xs => .ok (xs.any (fun x => match x with | .str t => t == k | _ => false))
  | .str s => .ok (listIsInfix k.data s.data)
  | _ => .error .typeError

/-- `d.get(k, default)`. -/
def dictGetD (kvs : List (String × Json)) (k : String) (d : Json) : Json :=
  (getKey kvs k).getD d

/-- Python `x > y` for the slot comparison (ints and bools compare
numerically, strings lexicographically; mixing anything else raises). -/
def pyGT : Json → Json → Py Bool
  | .num a, .num b => .ok (decide (b < a))
  | .num a, .bool b => .ok (decide ((if b then 1 else 0 : Int) < a))
  | .bool a, .num b => .ok (decide (b < (if a then 1 else 0 : Int)))
  | .bool a, .bool b => .ok (decide ((if b then 1 else 0 : Int) < (if a then 1 else 0 : Int)))
  | .str a, .str b => .ok (decide (b < a))
  | _, _ => .error .typeError

/-- `if ctx and isinstance(ctx, dict): if best_context is None or
ctx.get("slot", 0) > best_context.get("slot", 0): best_context = ctx`. -/
def updateBest (best : Option Json) (ctx : Json) : Py (Option Json) :=
  match ctx with
  | .obj ckvs =>
      if ckvs.isEmpty then .ok best
      else
        match best with
        | none => .ok (some ctx)
        | some b =>
            match b with
            | .obj bkvs =>
                match pyGT (dictGetD ckvs "slot" (.num 0)) (dictGetD bkvs "slot" (.num 0)) with
                | .error e => .error e
                | .ok true => .ok (some ctx)
                | .ok false => .ok (some b)
            | _ => .error .attributeError
  | _ => .ok best

/-- The per-index update loop `for i in range(len(val)): if merged_value[i]
is None and val[i] is not None: merged_value[i] = val[i]` (indices beyond
`val` are untouched; the caller guards the `IndexError` case). -/
def mergeVals (m vals : List Json) : List Json :=
  (m.take vals.length).zipWith (fun a v => if a.isNull && !v.isNull then v else a) vals
    ++ m.drop vals.length

/-- The loop state of `_merge_signature_statuses`: the `jsonrpc` value, the
best context seen, and the accumulating merged array. -/
structure MergeState where
  jsonrpc : Json
  best : Option Json
  merged : Option (List Json)

/-- One iteration of the merge loop over a single upstream response. -/
def mergeStep (st : MergeState) (r : Option Resp) : Py MergeState :=
  match r with
  | none => .ok st
  | some resp =>
      if !resp.ok then .ok st
      else
        match resp.body with
        | none => .ok st
        | some j =>
            match j with
            | .obj kvs =>
                match getKey kvs "result" with
                | none => .ok st
                | some res =>
                    match pyContains res "value" with
                    | .error e => .error e
                    | .ok false => .ok st
                    | .ok true =>
                        let jr := dictGetD kvs "jsonrpc" st.jsonrpc
                        match res with
                        | .obj rkvs =>
                            let ctx := dictGetD rkvs "context" .null
                            match dictGetD rkvs "value" .null with
                            | .arr vs =>
                                let m0 := st.merged.getD (List.replicate vs.length .null)
                                if vs.length > m0.length then .error .indexError
                                else
                                  match updateBest st.best ctx with
                                  | .error e => .error e
                                  | .ok b =>
                                      .ok ⟨jr, b, some (mergeVals m0 vs)⟩
                            | _ => .ok ⟨jr, st.best, st.merged⟩
                        | _ => .error .attributeError
            | _ => .ok st

/-- Folding the merge loop over all responses, propagating a raise. -/
def foldMerge : MergeState → List (Option Resp) → Py MergeState
  | st, [] => .ok st
  | st, r :: rest =>
      match mergeStep st r with
      | .error e => .error e
      | .ok st' => foldMerge st' rest

/-- `"result" in j and "value" in j["result"]` inside the fallback `try`:
every raise is caught and counts as no match (indexing a list or string
with `"result"` raises `TypeError`). -/
def resultValueCheck (j : Json) : Bool :=
  match j with
  | .obj kvs =>
      match getKey kvs "result" with
      | none => false
      | some res =>
          match pyContains res "value" with
          | .ok b => b
          | .error _ => false
  | _ => false

/-- The fallback loop: first response whose body parses and has the
`result`/`value` shape (HTTP status is not consulted here). -/
def fallbackScan : List (Option Resp) → Option Json
  | [] => none
  | r :: rest =>
      match r with
      | none => fallbackScan rest
      | some resp =>
          match resp.body with
          | none => fallbackScan rest
          | some j => if resultValueCheck j then some j else fallbackScan rest

/-- `_merge_signature_statuses(responses, original_id)`. -/
def merge_signature_statuses (responses : List (Option Resp)) (original_id : Json) :
    Py Json :=
  match foldMerge ⟨.str "2.0", none, none⟩ responses with
  | .error e => .error e
  | .ok st =>
      match st.merged with
      | none =>
          match fallbackScan responses with
          | some j => .ok j
          | none => .ok (.obj [("jsonrpc", st.jsonrpc),
              ("result", .obj [("context", st.best.getD (.obj [])), ("value", .arr [])]),
              ("id", original_id)])
      | some m => .ok (.obj [("jsonrpc", st.jsonrpc),
          ("result", .obj [("context", st.best.getD (.obj [])), ("value", .arr m)]),
          ("id", original_id)])

/-- Process-wide proxy configuration: the ordered upstream list
(primary first, never empty) and the method policy. -/
structure ProxyConfig where
  upstreams : List String
  policy : MethodPolicy

/-- Outcome of one `requests.post` to an upstream. -/
inductive NetResult where
  | timeout
  | err
  | resp (r : Resp)

/-- `_post_once` catches every exception and returns `None`. -/
def netToOpt : NetResult → Option Resp
  | .resp r => some r
  | _ => none

/-- A synthesized JSON-RPC error envelope. -/
def errEnvelope (code : Int) (msg : String) (idv : Json) : Json :=
  .obj [("jsonrpc", .str "2.0"),
        ("error", .obj [("code", .num code), ("message", .str msg)]),
        ("id", idv)]

/-- Python `str()` as used by the policy-rejection f-string (spelled out
for scalars; no claim exercises composite reprs). -/
def pyStr : Json → String
  | .str s => s
  | .num n => toString n
  | .bool true => "True"
  | .bool false => "False"
  | .null => "None"
  | .arr _ => "<list>"
  | .obj _ => "<dict>"

/-- `_methods_from(payload)`. -/
def methodsFrom (p : Json) : List Json :=
  match p with
  | .arr items => items.filterMap (fun it =>
      match it with
      | .obj kvs => getKey kvs "method"
      | _ => none)
  | .obj kvs => (getKey kvs "method").toList
  | _ => []

/-- The policy loop: the first method `_is_allowed_method` rejects, or the
exception escaping it. -/
def firstBlocked (cfg : MethodPolicy) : List Json → Py (Option Json)
  | [] => .ok none
  | m :: ms =>
      match is_allowed_method cfg m with
      | .error e => .error e
      | .ok true => firstBlocked cfg ms
      | .ok false => .ok (some m)

/-- `payload.get("method") == s`. -/
def isMethodStr (m : Option Json) (s : String) : Bool :=
  match m with
  | some (.str t) => t == s
  | _ => false

/-- The fanout-race scan (`wait(..., FIRST_COMPLETED)` then a scan of all
futures): visits the per-upstream responses in a completion order given by
`order` and returns the first HTTP-OK response with parsable JSON, with
its upstream status code. -/
def raceScan (responses : List (Option Resp)) : List Nat → Option (Json × Nat)
  | [] => none
  | i :: rest =>
      match responses.getD i none with
      | some r =>
          if r.ok then
            match r.body with
            | some j => some (j, r.status)
            | none => raceScan responses rest
          else raceScan responses rest
      | none => raceScan responses rest

/-- A proxy run: the HTTP result (or an uncaught exception, the
framework's 500) plus the trace of upstream calls made (url, forwarded
payload). -/
structure ProxyReturn where
  result : Py (Json × Nat)
  calls : List (String × Json)

/-- The HTTP status the client sees: an exception that escapes the handler
becomes the framework's 500. -/
def pyStatus : Py (Json × Nat) → Nat
  | .ok (_, s) => s
  | .error _ => 500

/-- The default single-dispatch path (also used verbatim for batches,
whose synthesized envelopes carry a `null` id): one `requests.post` to the
primary upstream; timeout → 504 envelope, other transport error → 502,
unparsable body → 502, otherwise the upstream body and status are passed
through. -/
def defaultDispatch (cfg : ProxyConfig) (payload : Json) (idv : Json)
    (net : List NetResult) : ProxyReturn :=
  { calls := [(cfg.upstreams.headD "", payload)]
    result :=
      match net.headD .err with
      | .timeout => .ok (errEnvelope 504 "Upstream timeout" idv, 504)
      | .err => .ok (errEnvelope 502 "Upstream error" idv, 502)
      | .resp r =>
          match r.body with
          | some j => .ok (j, r.status)
          | none => .ok (errEnvelope 502 "Invalid JSON from upstream" idv, 502) }

/-- `/rpc` (POST), starting after JSON parsing succeeded: the policy gate
(whose rejection envelope carries id `null`), then the per-method strategy
for single requests — fanout-race for `sendTransaction`/`requestAirdrop`
and fanout-merge for `getSignatureStatuses`, each only with more than one
upstream — and the primary-only default otherwise.  A batch (array)
payload always takes the primary-only path.  `net` lists the outcomes of
the upstream calls the chosen strategy makes, in upstream-list order;
`order` models the nondeterministic completion order of the race. -/
def rpc_proxy (cfg : ProxyConfig) (payload : Json) (net : List NetResult)
    (order : List Nat) : ProxyReturn :=
  match firstBlocked cfg.policy (methodsFrom payload) with
  | .error e => { result := .error e, calls := [] }
  | .ok (some m) =>
      { result := .ok (errEnvelope (-32601)
            ("Method " ++ pyStr m ++ " not allowed by proxy policy") .null, 403)
        calls := [] }
  | .ok none =>
      match payload with
      | .obj kvs =>
          let method := getKey kvs "method"
          let idv := (getKey kvs "id").getD .null
          if (isMethodStr method "sendTransaction" || isMethodStr method "requestAirdrop")
              && decide (cfg.upstreams.length > 1) then
            { calls := cfg.upstreams.map (fun u => (u, payload))
              result :=
                match raceScan (net.map netToOpt) order with
                | some (j, s) => .ok (j, s)
                | none => .ok (errEnvelope 502 "All upstreams failed" idv, 502) }
          else if isMethodStr method "getSignatureStatuses"
              && decide (cfg.upstreams.length > 1) then
            { calls := cfg.upstreams.map (fun u => (u, payload))
              result :=
                match merge_signature_statuses (net.map netToOpt) idv with
                | .error e => .error e
                | .ok j => .ok (j, 200) }
          else defaultDispatch cfg payload idv net
      | _ => defaultDispatch cfg payload .null net

/-- A well-formed `getSignatureStatuses` upstream response: HTTP OK with
body `{"result": {"context": {"slot": slot}, "value": vals}}`. -/
def wfResp (slot : Int) (vals : List Json) : Option Resp :=
  some { ok := true, status := 200,
         body := some (.obj [("result",
           .obj [("context", .obj [("slot", .num slot)]), ("value", .arr vals)])]) }

/-- First non-null entry of a list, `null` when every entry is null. -/
def firstNonNull : List Json → Json
  | [] => .null
  | x :: xs => if x.isNull then firstNonNull xs else x

/-- The specified merged array: at each index, the first non-null status
across the upstreams in configured order. -/
def mergedSpec (ups : List (Int × List Json)) (n : Nat) : List Json :=
  (List.range n).map (fun i => firstNonNull (ups.map (fun u => u.2.getD i .null)))

/-- The highest slot among `u0` and `rest`. -/
def maxSlot (u0 : Int) (rest : List Int) : Int := rest.foldl max u0


/-! ## Facts about the base64 codec -/

/-- Looking up an encoded 6-bit value recovers it. -/
theorem b64Index_b64Char : ∀ i : Fin 64, b64Index (b64Char i.val) = some i.val := by decide

/-- Alphabet characters are never padding. -/
theorem b64Char_ne_pad : ∀ i : Fin 64, b64Char i.val ≠ '=' := by decide

/-- Strict decoding inverts encoding on genuine byte sequences. -/
theorem b64decodeList_b64encodeList :
    ∀ (bs : List Nat), (∀ b ∈ bs, b < 256) → b64decodeList (b64encodeList bs) = some bs
  | [], _ => rfl
  | [b1], h => by
      have hb1 : b1 < 256 := h b1 (by simp)
      have h1 := b64Index_b64Char ⟨b1 / 4, by omega⟩
      have h2 := b64Index_b64Char ⟨b1 % 4 * 16, by omega⟩
      simp only [b64encodeList, b64decodeList, h1, h2, reduceIte, Option.some.injEq,
        List.cons.injEq, and_true]
      omega
  | [b1, b2], h => by
      have hb1 : b1 < 256 := h b1 (by simp)
      have hb2 : b2 < 256 := h b2 (by simp)
      have h1 := b64Index_b64Char ⟨b1 / 4, by omega⟩
      have h2 := b64Index_b64Char ⟨b1 % 4 * 16 + b2 / 16, by omega⟩
      have h3 := b64Index_b64Char ⟨b2 % 16 * 4, by omega⟩
      have h3' := b64Char_ne_pad ⟨b2 % 16 * 4, by omega⟩
      simp only [b64encodeList, b64decodeList, h1, h2, h3]
      rw [if_neg (by simp [h3'])]
      simp only [reduceIte, Option.some.injEq, List.cons.injEq, and_true]
      omega
  | b1 :: b2 :: b3 :: rest, h => by
      have hb1 : b1 < 256 := h b1 (by simp)
      have hb2 : b2 < 256 := h b2 (by simp)
      have hb3 : b3 < 256 := h b3 (by simp)
      have ih := b64decodeList_b64encodeList rest (fun b hb => h b (by simp [hb]))
      have h1 := b64Index_b64Char ⟨b1 / 4, by omega⟩
      have h2 := b64Index_b64Char ⟨b1 % 4 * 16 + b2 / 16, by omega⟩
      have h3 := b64Index_b64Char ⟨b2 % 16 * 4 + b3 / 64, by omega⟩
      have h4 := b64Index_b64Char ⟨b3 % 64, by omega⟩
      have h3' := b64Char_ne_pad ⟨b2 % 16 * 4 + b3 / 64, by omega⟩
      have h4' := b64Char_ne_pad ⟨b3 % 64, by omega⟩
      simp only [b64encodeList, b64decodeList, h1, h2, h3, h4]
      rw [if_neg (by simp [h3'])]
      rw [if_neg (by simp [h4'])]
      rw [ih]
      simp only [Option.map_some', Option.some.injEq, List.cons.injEq, and_true]
      omega

/-- Characters of a successfully strict-decoded string are alphabet
characters or padding. -/
theorem b64decodeList_chars :
    ∀ (cs : List Char) (bs : List Nat), b64decodeList cs = some bs →
      ∀ c ∈ cs, (b64Index c).isSome = true ∨ c = '='
  | [], _, _ => by simp
  | [c1], bs, h => by exact absurd h (by simp [b64decodeList])
  | [c1, c2], bs, h => by exact absurd h (by simp [b64decodeList])
  | [c1, c2, c3], bs, h => by exact absurd h (by simp [b64decodeList])
  | c1 :: c2 :: c3 :: c4 :: rest, bs, h => by
      unfold b64decodeList at h
      split at h
      case h_2 => exact absurd h (by simp)
      case h_1 i1 i2 h1 h2 =>
        split at h
        case isTrue hpad =>
          intro c hc
          rcases hpad with ⟨hp3, hp4, hrest⟩
          subst hp3; subst hp4; subst hrest
          simp only [List.mem_cons, List.not_mem_nil, or_false] at hc
          rcases hc with rfl | rfl | rfl | rfl
          · exact Or.inl (by simp [h1])
          · exact Or.inl (by simp [h2])
          · exact Or.inr rfl
          · exact Or.inr rfl
        case isFalse hpad =>
          split at h
          case h_2 => exact absurd h (by simp)
          case h_1 i3 h3 =>
            split at h
            case isTrue hpad2 =>
              intro c hc
              rcases hpad2 with ⟨hp4, hrest⟩
              subst hp4; subst hrest
              simp only [List.mem_cons, List.not_mem_nil, or_false] at hc
              rcases hc with rfl | rfl | rfl | rfl
              · exact Or.inl (by simp [h1])
              · exact Or.inl (by simp [h2])
              · exact Or.inl (by simp [h3])
              · exact Or.inr rfl
            case isFalse hpad2 =>
              split at h
              case h_2 => exact absurd h (by simp)
              case h_1 i4 h4 =>
                cases hr : b64decodeList rest with
                | none => rw [hr] at h; exact absurd h (by simp)
                | some tl =>
                  have ihr := b64decodeList_chars rest tl hr
                  intro c hc
                  simp only [List.mem_cons] at hc
                  rcases hc with rfl | rfl | rfl | rfl | hmem
                  · exact Or.inl (by simp [h1])
                  · exact Or.inl (by simp [h2])
                  · exact Or.inl (by simp [h3])
                  · exact Or.inl (by simp [h4])
                  · exact ihr c hmem

/-- Lenient decoding (no `validate`) agrees with strict decoding whenever
the strict decoder succeeds. -/
theorem b64decodeLenient_of_strict (s : String) (bs : List Nat)
    (h : b64decode s = some bs) : b64decodeLenient s = some bs := by
  unfold b64decodeLenient
  have hf : s.data.filter (fun c => (b64Index c).isSome || c == '=') = s.data := by
    apply List.filter_eq_self.mpr
    intro c hc
    rcases b64decodeList_chars s.data bs h c hc with h1 | h1
    · simp [h1]
    · simp [h1]
  rw [hf]
  exact h

/-! ## Facts about base58 and hex decoding -/

/-- Characters of a successfully base58-decoded string have digit values. -/
theorem b58decInt_chars :
    ∀ (cs : List Char) (acc n : Nat), b58decInt cs acc = some n →
      ∀ c ∈ cs, (b58DigitOf c).isSome = true
  | [], _, _, _ => by simp
  | c :: cs, acc, n, h => by
      unfold b58decInt at h
      cases hd : b58DigitOf c with
      | none => rw [hd] at h; exact absurd h (by simp)
      | some d =>
        rw [hd] at h
        intro c' hc'
        simp only [List.mem_cons] at hc'
        rcases hc' with rfl | hmem
        · simp [hd]
        · exact b58decInt_chars cs (acc * 58 + d) n h c' hmem

/-- Characters of a successfully hex-decoded pair list are hex digits. -/
theorem hexPairs_chars :
    ∀ (cs : List Char) (bs : List Nat), hexPairs cs = some bs →
      ∀ c ∈ cs, (hexDigitVal c).isSome = true
  | [], _, _ => by simp
  | [c1], bs, h => by exact absurd h (by simp [hexPairs])
  | c1 :: c2 :: rest, bs, h => by
      unfold hexPairs at h
      cases h1 : hexDigitVal c1 with
      | none => rw [h1] at h; exact absurd h (by simp)
      | some v1 =>
        cases h2 : hexDigitVal c2 with
        | none => rw [h1, h2] at h; exact absurd h (by simp)
        | some v2 =>
          rw [h1, h2] at h
          cases hr : hexPairs rest with
          | none => rw [hr] at h; exact absurd h (by simp)
          | some tl =>
            intro c hc
            simp only [List.mem_cons] at hc
            rcases hc with rfl | rfl | hmem
            · simp [h1]
            · simp [h2]
            · exact hexPairs_chars rest tl hr c hmem

/-- A string containing a newline fails all three string decoders, so
`_coerce_to_bytes` falls back to UTF-8 encoding. -/
theorem coerce_str_newline (s : String) (h : '\n' ∈ s.data) :
    coerce_to_bytes (.str s) = .ok (utf8Bytes s) := by
  have hb64 : b64decode s = none := by
    cases hd : b64decode s with
    | none => rfl
    | some bs =>
      rcases b64decodeList_chars s.data bs hd '\n' h with h1 | h1
      · exact absurd h1 (by decide)
      · exact absurd h1 (by decide)
  have hb58 : b58decode s = none := by
    unfold b58decode
    cases hd : b58decInt s.data 0 with
    | none => rfl
    | some n =>
      have := b58decInt_chars s.data 0 n hd '\n' h
      exact absurd this (by decide)
  have hhex : hexDecode s = none := by
    unfold hexDecode
    cases hd : hexPairs (s.data.filter (fun c => c ≠ ' ')) with
    | none => rfl
    | some bs =>
      have hmem : '\n' ∈ s.data.filter (fun c => c ≠ ' ') := by
        apply List.mem_filter.mpr
        exact ⟨h, by decide⟩
      have := hexPairs_chars _ bs hd '\n' hmem
      exact absurd this (by decide)
  simp only [coerce_to_bytes, hb64, hb58, hhex]

/-! ## Totality facts about `_coerce_to_bytes` -/

/-- The byte-array branch succeeds when every element converts with
`int(...)`. -/
theorem bytesFromInts_total :
    ∀ (xs : List Json), (∀ x ∈ xs, (pyInt x).isSome = true) →
      ∃ bs, bytesFromInts xs = .ok bs
  | [], _ => ⟨[], rfl⟩
  | x :: xs, h => by
      obtain ⟨n, hn⟩ := Option.isSome_iff_exists.mp (h x (by simp))
      obtain ⟨bs, hbs⟩ := bytesFromInts_total xs (fun y hy => h y (by simp [hy]))
      exact ⟨(n.emod 256).toNat :: bs, by simp [bytesFromInts, hn, hbs, Except.map]⟩

/-- String input never raises: the UTF-8 fallback catches every decoder
failure. -/
theorem coerce_str_total (s : String) : ∃ bs, coerce_to_bytes (Json.str s) = .ok bs := by
  rcases hb : b64decode s with _ | bs
  · rcases h58 : b58decode s with _ | bs
    · rcases hx : hexDecode s with _ | bs
      · exact ⟨utf8Bytes s, by simp only [coerce_to_bytes, hb, h58, hx]⟩
      · exact ⟨bs, by simp only [coerce_to_bytes, hb, h58, hx]⟩
    · exact ⟨bs, by simp only [coerce_to_bytes, hb, h58]⟩
  · exact ⟨bs, by simp only [coerce_to_bytes, hb]⟩

/-- The nonce gate passes exactly when the stored challenge exists, its
nonce is echoed, and no more than 300 seconds have elapsed. -/
theorem nonceFails_false_iff (sess : Option SiwsSession) (inp : Option Json) (now : Int) :
    nonceFails sess inp now = false ↔
      ∃ st, sess = some st ∧ inp = some (.str st.nonce) ∧ now - st.ts ≤ 300 := by
  cases sess with
  | none => simp [nonceFails]
  | some s =>
    simp only [nonceFails, Bool.or_eq_false_iff, Bool.not_eq_false', decide_eq_false_iff_not,
      not_lt, Option.some.injEq]
    constructor
    · rintro ⟨hm, ht⟩
      cases inp with
      | none => simp at hm
      | some j =>
        cases j with
        | str n =>
          refine ⟨s, rfl, ?_, by omega⟩
          have : s.nonce = n := by simpa using hm
          simp [this]
        | null => simp at hm
        | bool b => simp at hm
        | num k => simp at hm
        | arr xs => simp at hm
        | obj kvs => simp at hm
    · rintro ⟨st, hst, hinp, ht⟩
      subst hst
      subst hinp
      exact ⟨by simp, by omega⟩

/-- `b58decode` succeeding implies the string has no `':'`, so the
scheme-tag normalization leaves it unchanged. -/
theorem b58decode_no_colon (s : String) (bs : List Nat) (h : b58decode s = some bs) :
    normalizeAddr s = s := by
  unfold b58decode at h
  cases hd : b58decInt s.data 0 with
  | none => rw [hd] at h; exact absurd h (by simp)
  | some acc =>
    have hc := b58decInt_chars s.data 0 acc hd
    have hmem : ':' ∉ s.data := by
      intro hm
      have := hc ':' hm
      exact absurd this (by decide)
    unfold normalizeAddr
    rw [if_neg (by simpa using hmem)]

/-- A string that base58-decodes to a 32-byte key is nonempty, hence
truthy. -/
theorem b58decode32_truthy (s : String) (bs : List Nat) (h : b58decode s = some bs)
    (h32 : bs.length = 32) : jsonTruthy (.str s) = true := by
  cases hd : s.data with
  | cons c cs => simp [jsonTruthy, String.length, hd]
  | nil =>
    exfalso
    unfold b58decode at h
    rw [hd] at h
    simp [b58decInt, countLeadingOnes, natToBytesBE, natToBytesBEAux] at h
    rw [h] at h32
    simp at h32

/-! ## Facts about the merge loop -/

/-- `isNull` characterizes the `null` constructor. -/
theorem Json.isNull_iff (j : Json) : j.isNull = true ↔ j = .null := by
  cases j <;> simp [Json.isNull]

/-- The per-index update never changes the array length (when the update
loop stays in bounds). -/
theorem mergeVals_length (m vals : List Json) (h : vals.length ≤ m.length) :
    (mergeVals m vals).length = m.length := by
  simp only [mergeVals, List.length_append, List.length_zipWith, List.length_take,
    List.length_drop]
  omega

/-- The per-index update on an array given as a map over `range`. -/
theorem mergeVals_map_range (g : Nat → Json) (vals : List Json) (n : Nat)
    (h : vals.length = n) :
    mergeVals ((List.range n).map g) vals
      = (List.range n).map (fun i =>
          if (g i).isNull && !(vals.getD i .null).isNull then vals.getD i .null else g i) := by
  have hlen : ((List.range n).map g).length = n := by simp
  apply List.ext_getElem
  · rw [mergeVals_length _ _ (by omega)]
    simp
  · intro i h1 h2
    have hi : i < n := by
      rw [mergeVals_length _ _ (by omega)] at h1
      simpa using h1
    have htake : ((List.range n).map g).take vals.length = (List.range n).map g := by
      apply List.take_of_length_le
      omega
    have hdrop : ((List.range n).map g).drop vals.length = [] := by
      apply List.drop_eq_nil_of_le
      omega
    simp only [mergeVals, htake, hdrop, List.append_nil]
    rw [List.getElem_zipWith]
    simp only [List.getElem_map, List.getElem_range]
    congr 1
    · rw [List.getD_eq_getElem vals .null (by omega)]
    · rw [List.getD_eq_getElem vals .null (by omega)]

/-- Comparing two pure slot records keeps the higher slot. -/
theorem updateBest_slot (b slot : Int) :
    updateBest (some (.obj [("slot", .num b)])) (.obj [("slot", .num slot)])
      = .ok (some (.obj [("slot", .num (max b slot))])) := by
  by_cases hlt : b < slot
  · have hm : max b slot = slot := by omega
    rw [hm]
    simp [updateBest, dictGetD, getKey, pyGT, hlt]
  · have hm : max b slot = b := by omega
    rw [hm]
    simp [updateBest, dictGetD, getKey, pyGT, hlt]

/-- Effect of the merge iteration on the first well-formed response. -/
theorem mergeStep_wf_first (jr : Json) (slot : Int) (vals : List Json) :
    mergeStep ⟨jr, none, none⟩ (wfResp slot vals)
      = .ok ⟨jr, some (.obj [("slot", .num slot)]),
          some (mergeVals (List.replicate vals.length .null) vals)⟩ := by
  show (if vals.length > (List.replicate vals.length (Json.null)).length then
          (.error .indexError : Py MergeState)
        else .ok ⟨jr, some (.obj [("slot", .num slot)]),
          some (mergeVals (List.replicate vals.length .null) vals)⟩)
      = .ok ⟨jr, some (.obj [("slot", .num slot)]),
          some (mergeVals (List.replicate vals.length .null) vals)⟩
  rw [if_neg (by simp)]

/-- Effect of the merge iteration on a later well-formed response, from a
state holding a pure slot record and a merged array at least as long as
the incoming value array. -/
theorem mergeStep_wf_some (jr : Json) (b : Int) (m : List Json) (slot : Int)
    (vals : List Json) (hlen : vals.length ≤ m.length) :
    mergeStep ⟨jr, some (.obj [("slot", .num b)]), some m⟩ (wfResp slot vals)
      = .ok ⟨jr, some (.obj [("slot", .num (max b slot))]),
          some (mergeVals m vals)⟩ := by
  show (if vals.length > m.length then (.error .indexError : Py MergeState)
        else
          match updateBest (some (.obj [("slot", .num b)])) (.obj [("slot", .num slot)]) with
          | .error e => .error e
          | .ok bb => .ok ⟨jr, bb, some (mergeVals m vals)⟩)
      = .ok ⟨jr, some (.obj [("slot", .num (max b slot))]), some (mergeVals m vals)⟩
  rw [if_neg (by omega), updateBest_slot]

/-- Folding the merge loop over well-formed responses accumulates the
pointwise merge and the maximum slot. -/
theorem foldMerge_wf :
    ∀ (ups : List (Int × List Json)) (jr : Json) (b : Int) (m : List Json),
      (∀ v ∈ ups, v.2.length ≤ m.length) →
      foldMerge ⟨jr, some (.obj [("slot", .num b)]), some m⟩
          (ups.map (fun v => wfResp v.1 v.2))
        = .ok ⟨jr, some (.obj [("slot", .num (maxSlot b (ups.map Prod.fst)))]),
            some (ups.foldl (fun acc v => mergeVals acc v.2) m)⟩
  | [], jr, b, m, _ => by simp [foldMerge, maxSlot]
  | v :: ups, jr, b, m, hlen => by
      have hv : v.2.length ≤ m.length := hlen v (by simp)
      have hstep := mergeStep_wf_some jr b m v.1 v.2 hv
      simp only [List.map_cons, foldMerge, hstep]
      have hrest : ∀ w ∈ ups, w.2.length ≤ (mergeVals m v.2).length := by
        intro w hw
        rw [mergeVals_length m v.2 hv]
        exact hlen w (by simp [hw])
      rw [foldMerge_wf ups jr (max b v.1) (mergeVals m v.2) hrest]
      have hms : maxSlot b (v.1 :: ups.map Prod.fst) = maxSlot (max b v.1) (ups.map Prod.fst) := rfl
      have hfl : (v :: ups).foldl (fun acc w => mergeVals acc w.2) m
          = ups.foldl (fun acc w => mergeVals acc w.2) (mergeVals m v.2) := rfl
      rw [hms, hfl]

/-- The fold of the update loop computes, at each index, the first
non-null status across the upstreams in order. -/
theorem foldMergeVals_range :
    ∀ (ups : List (Int × List Json)) (n : Nat) (g : Nat → Json),
      (∀ v ∈ ups, v.2.length = n) →
      ups.foldl (fun acc v => mergeVals acc v.2) ((List.range n).map g)
        = (List.range n).map (fun i =>
            if (g i).isNull then firstNonNull (ups.map (fun u => u.2.getD i .null))
            else g i)
  | [], n, g, _ => by
      apply List.map_congr_left
      intro i _
      by_cases hg : (g i).isNull = true
      · rw [if_pos hg]
        simp only [List.map_nil, firstNonNull]
        exact (Json.isNull_iff (g i)).mp hg
      · rw [if_neg hg]
  | v :: ups, n, g, hlen => by
      have hv : v.2.length = n := hlen v (by simp)
      simp only [List.foldl_cons]
      rw [mergeVals_map_range g v.2 n hv]
      rw [foldMergeVals_range ups n _ (fun w hw => hlen w (by simp [hw]))]
      apply List.map_congr_left
      intro i _
      simp only [List.map_cons]
      generalize v.2.getD i Json.null = w
      by_cases hg : (g i).isNull = true
      · by_cases hvv : w.isNull = true
        · simp [hg, hvv, firstNonNull]
        · simp [hg, hvv, firstNonNull]
      · simp [hg, firstNonNull]

/-- Everything fed into `maxSlot` is bounded by it. -/
theorem le_maxSlot : ∀ (l : List Int) (a x : Int), (x = a ∨ x ∈ l) → x ≤ maxSlot a l
  | [], a, x, h => by
      rcases h with rfl | h
      · exact le_refl x
      · exact absurd h (List.not_mem_nil x)
  | b :: l, a, x, h => by
      have hstep : maxSlot a (b :: l) = maxSlot (max a b) l := rfl
      rw [hstep]
      rcases h with rfl | h
      · exact le_trans (le_max_left x b) (le_maxSlot l (max x b) (max x b) (Or.inl rfl))
      · rcases List.mem_cons.mp h with rfl | h
        · exact le_trans (le_max_right a x) (le_maxSlot l (max a x) (max a x) (Or.inl rfl))
        · exact le_maxSlot l (max a b) x (Or.inr h)

/-- `maxSlot` is attained by one of its inputs. -/
theorem maxSlot_mem : ∀ (l : List Int) (a : Int), maxSlot a l = a ∨ maxSlot a l ∈ l
  | [], a => Or.inl rfl
  | b :: l, a => by
      have hstep : maxSlot a (b :: l) = maxSlot (max a b) l := rfl
      rcases maxSlot_mem l (max a b) with h | h
      · rcases le_total a b with hab | hab
        · right
          rw [hstep, h, max_eq_right hab]
          exact List.mem_cons_self b l
        · left
          rw [hstep, h]
          exact max_eq_left hab
      · right
        rw [hstep]
        exact List.mem_cons_of_mem b h

/-! # Claim theorems -/

/-- **C2.** For every method name `m`, `_is_allowed_method` is computed in
this order: blocklist membership rejects regardless of the allowlist;
otherwise with an explicit allowlist the result is allowlist membership;
otherwise (default-open) the result is `m` starting with `get` or being one
of `simulateTransaction`, `sendTransaction`, `requestAirdrop`.  With
blocklist `{sendTransaction}` and no explicit allowlist: `getBalance` is
allowed, `sendTransaction` and `deleteAccount` are rejected. -/
theorem method_policy_order :
    (∀ (cfg : MethodPolicy) (m : String),
      is_allowed_method cfg (.str m) =
        .ok (if cfg.blocklist.contains m then false
             else
               match cfg.allowEnv with
               | some allow => allow.contains m
               | none => strStartsWith m "get" || m == "simulateTransaction" ||
                         m == "sendTransaction" || m == "requestAirdrop"))
    ∧ is_allowed_method ⟨["sendTransaction"], none⟩ (.str "getBalance") = .ok true
    ∧ is_allowed_method ⟨["sendTransaction"], none⟩ (.str "sendTransaction") = .ok false
    ∧ is_allowed_method ⟨["sendTransaction"], none⟩ (.str "deleteAccount") = .ok false := by
  refine ⟨?_, rfl, rfl, rfl⟩
  intro cfg m
  simp only [is_allowed_method, jsonInStrSet]
  by_cases hb : cfg.blocklist.contains m = true
  · rw [if_pos hb, if_pos hb]
  · rw [if_neg hb, if_neg hb]
    cases cfg.allowEnv <;> rfl

/-- **C6 (counterexample).**  The claim says a boolean input signals the
`UnsupportedEncoding` error; in fact Python's `bytes(True)` yields one zero
byte (`bool` is an `int` subtype), so `_coerce_to_bytes(True)` returns
`b"\x00"` and raises nothing. -/
theorem coerce_bool_no_error :
    coerce_to_bytes (Json.bool true) = .ok [0]
    ∧ coerce_to_bytes (Json.bool true) ≠ .error PyError.cannotCoerce :=
  ⟨rfl, fun h => by simp [coerce_to_bytes] at h⟩

/-- **C6 (amended).**  `_coerce_to_bytes` returns a byte sequence without
raising on `null` (empty bytes), on every string, on every list whose
elements convert with `int(...)`; a boolean `b` coerces to `int(b)` zero
bytes and a non-negative integer `n` to `n` zero bytes; a negative integer
(no byte interpretation) signals the `UnsupportedEncoding` error
(`TypeError("Cannot coerce to bytes: ...")`). -/
theorem coerce_totality :
    coerce_to_bytes Json.null = .ok []
    ∧ (∀ s : String, ∃ bs, coerce_to_bytes (Json.str s) = .ok bs)
    ∧ (∀ xs : List Json, (∀ x ∈ xs, (pyInt x).isSome = true) →
        ∃ bs, coerce_to_bytes (Json.arr xs) = .ok bs)
    ∧ (∀ b : Bool, coerce_to_bytes (Json.bool b) = .ok (List.replicate (if b then 1 else 0) 0))
    ∧ (∀ n : Int, 0 ≤ n → coerce_to_bytes (Json.num n) = .ok (List.replicate n.toNat 0))
    ∧ (∀ n : Int, n < 0 → coerce_to_bytes (Json.num n) = .error PyError.cannotCoerce) := by
  refine ⟨rfl, coerce_str_total, ?_, ?_, ?_, ?_⟩
  · intro xs h
    simpa only [coerce_to_bytes] using bytesFromInts_total xs h
  · intro b; cases b <;> rfl
  · intro n hn; simp only [coerce_to_bytes]; rw [if_pos hn]
  · intro n hn; simp only [coerce_to_bytes]; rw [if_neg (not_le.mpr hn)]

/-- **C6 (witness).** -/
theorem coerce_totality_witness :
    (0 : Int) ≤ 3 ∧ coerce_to_bytes (Json.num 3) = .ok (List.replicate ((3 : Int)).toNat 0)
    ∧ (-2 : Int) < 0 ∧ coerce_to_bytes (Json.num (-2)) = .error PyError.cannotCoerce :=
  ⟨by decide, coerce_totality.2.2.2.2.1 3 (by decide), by decide,
   coerce_totality.2.2.2.2.2 (-2) (by decide)⟩

/-- **C7 (counterexample).**  The round trip fails for the hex encoding:
`bytes([18]).hex() = "12"`, but `_coerce_to_bytes("12")` tries base58 before
hex and `"12"` is a valid base58 string, decoding to `b"\x00\x01"` — not
`b"\x12"`. -/
theorem coerce_hex_roundtrip_fails :
    coerce_to_bytes (Json.str (hexEncode [18])) = .ok [0, 1]
    ∧ coerce_to_bytes (Json.str (hexEncode [18])) ≠ .ok [18] :=
  ⟨rfl, fun h => by
    rw [show coerce_to_bytes (Json.str (hexEncode [18])) = .ok [0, 1] from rfl] at h
    simp at h⟩

/-- **C7 (amended).**  The encode-then-coerce round trip holds for the
base64 encoding (tried first, so nothing can shadow it): for every byte
sequence `bs`, `_coerce_to_bytes(b64encode(bs)) = bs`.  For base58 and hex
it can fail because an earlier decoder in the priority chain may accept the
encoded string, as the counterexample shows. -/
theorem coerce_b64_roundtrip (bs : List Nat) (h : ∀ b ∈ bs, b < 256) :
    coerce_to_bytes (Json.str (b64encode bs)) = .ok bs := by
  have hd : b64decode (b64encode bs) = some bs := by
    unfold b64decode b64encode
    exact b64decodeList_b64encodeList bs h
  simp only [coerce_to_bytes, hd]

/-- **C7 (witness).** -/
theorem coerce_b64_roundtrip_witness :
    coerce_to_bytes (Json.str (b64encode [0, 1, 255, 77])) = .ok [0, 1, 255, 77] :=
  coerce_b64_roundtrip [0, 1, 255, 77] (by decide)

/-- **C1.**  With a well-formed payload (address present and base58-decoding
to 32 bytes, coercible message, signature coercing to 64 bytes) whose
signature is cryptographically correct, `verify` succeeds iff the stored
challenge exists, its nonce is echoed, and at most 300 seconds have elapsed;
whenever the challenge is absent, the nonce differs, or more than 300
seconds have elapsed — in particular at exactly 301 seconds — the identical
payload fails with the invalid-nonce error, which is HTTP 400. -/
theorem siws_nonce_roundtrip
    (oracle : SigOracle) (sess : Option SiwsSession) (now : Int) (body : SiwsBody)
    (a : String) (pk sm sg : List Nat)
    (haddr : pyOr3 (body.accountAddress.getD .null) (body.publicKey.getD .null)
        (body.outputAddress.getD .null) = .str a)
    (hat : jsonTruthy (.str a) = true)
    (hsm : coerce_to_bytes (body.signedMessage.getD .null) = .ok sm)
    (hsg : coerce_to_bytes (body.signature.getD .null) = .ok sg)
    (hpk : b58decode (normalizeAddr a) = some pk)
    (hpk32 : pk.length = 32)
    (hsg64 : sg.length = 64)
    (hor : oracle pk sm sg = true) :
    (siws_verify oracle sess now body = .ok (.verified (normalizeAddr a))
      ↔ ∃ st, sess = some st ∧ body.inputNonce = some (.str st.nonce) ∧ now - st.ts ≤ 300)
    ∧ (nonceFails sess body.inputNonce now = true →
        siws_verify oracle sess now body = .ok .invalidNonce)
    ∧ (∀ st, sess = some st → now - st.ts = 301 →
        siws_verify oracle sess now body = .ok .invalidNonce)
    ∧ siwsHttp (.ok .invalidNonce) = ("invalid nonce", 400)
    ∧ siwsHttp (.ok (.verified (normalizeAddr a))) = ("ok", 200) := by
  have hrun : ∀ hnf : nonceFails sess body.inputNonce now = false,
      siws_verify oracle sess now body = .ok (.verified (normalizeAddr a)) := by
    intro hnf
    simp only [siws_verify, haddr, hat, Bool.not_true, Bool.false_eq_true, if_false,
      hsm, hsg, hnf, hpk]
    rw [if_neg (by simp [hpk32])]
    rw [if_neg (by simp [hsg64])]
    rw [if_pos hor]
  have hfail : ∀ hnf : nonceFails sess body.inputNonce now = true,
      siws_verify oracle sess now body = .ok .invalidNonce := by
    intro hnf
    simp only [siws_verify, haddr, hat, Bool.not_true, Bool.false_eq_true, if_false,
      hsm, hsg, hnf, if_true]
  refine ⟨?_, hfail, ?_, rfl, rfl⟩
  · constructor
    · intro hv
      cases hnf : nonceFails sess body.inputNonce now with
      | true => rw [hfail hnf] at hv; exact absurd hv (by simp)
      | false => exact (nonceFails_false_iff sess body.inputNonce now).mp hnf
    · intro hex
      exact hrun ((nonceFails_false_iff sess body.inputNonce now).mpr hex)
  · intro st hst ht
    apply hfail
    cases hnf : nonceFails sess body.inputNonce now with
    | true => rfl
    | false =>
      obtain ⟨st', hst', _, ht'⟩ := (nonceFails_false_iff sess body.inputNonce now).mp hnf
      rw [hst] at hst'
      injection hst' with he
      rw [← he] at ht'
      omega

/-- **C1 (witness).**  A fresh challenge echoed at exactly 300 seconds
with a correctly signed, well-formed payload verifies; the same session
one second later is rejected with the invalid-nonce error. -/
theorem siws_nonce_roundtrip_witness :
    siws_verify (fun _ _ _ => true) (some ⟨"n1", 0⟩) 300
        ⟨some (.str "n1"), none, some (.str "11111111111111111111111111111111"), none,
         none, some (.arr (List.replicate 64 (.num 1)))⟩
      = .ok (.verified "11111111111111111111111111111111")
    ∧ siws_verify (fun _ _ _ => true) (some ⟨"n1", 0⟩) 301
        ⟨some (.str "n1"), none, some (.str "11111111111111111111111111111111"), none,
         none, some (.arr (List.replicate 64 (.num 1)))⟩
      = .ok .invalidNonce :=
  ⟨(siws_nonce_roundtrip (fun _ _ _ => true) (some ⟨"n1", 0⟩) 300
      ⟨some (.str "n1"), none, some (.str "11111111111111111111111111111111"), none,
       none, some (.arr (List.replicate 64 (.num 1)))⟩
      "11111111111111111111111111111111" (List.replicate 32 0) [] (List.replicate 64 1)
      rfl rfl rfl rfl rfl (by decide) (by decide) rfl).1.mpr
      ⟨⟨"n1", 0⟩, rfl, rfl, by decide⟩,
   (siws_nonce_roundtrip (fun _ _ _ => true) (some ⟨"n1", 0⟩) 301
      ⟨some (.str "n1"), none, some (.str "11111111111111111111111111111111"), none,
       none, some (.arr (List.replicate 64 (.num 1)))⟩
      "11111111111111111111111111111111" (List.replicate 32 0) [] (List.replicate 64 1)
      rfl rfl rfl rfl rfl (by decide) (by decide) rfl).2.2.1 ⟨"n1", 0⟩ rfl (by decide)⟩

/-- When the coerced signature is not 64 bytes long, the run of `verify`
never consults the Ed25519 oracle: its result can be written without it. -/
theorem siws_verify_sig_ne64 (oracle : SigOracle) (sess : Option SiwsSession)
    (now : Int) (body : SiwsBody) (sg : List Nat)
    (hsg : coerce_to_bytes (body.signature.getD .null) = .ok sg)
    (h64 : sg.length ≠ 64) :
    siws_verify oracle sess now body =
      (let addrVal := pyOr3 (body.accountAddress.getD .null) (body.publicKey.getD .null)
          (body.outputAddress.getD .null)
       if !jsonTruthy addrVal then .ok .missingAddress
       else
         match coerce_to_bytes (body.signedMessage.getD .null) with
         | .error e => .error e
         | .ok _ =>
           if nonceFails sess body.inputNonce now then .ok .invalidNonce
           else
             match addrVal with
             | .str a =>
                 match b58decode (normalizeAddr a) with
                 | none => .ok .invalidAddress
                 | some pk =>
                     if pk.length ≠ 32 then .ok .invalidAddress
                     else .ok .invalidSignature
             | _ => .ok .invalidAddress) := by
  simp only [siws_verify, hsg]
  repeat' split
  all_goals rfl

/-- **C4.**  Whenever the coerced signature's byte length differs from 64,
the result of `verify` does not depend on the Ed25519 primitive — the
cryptographic step is never reached — and, when all earlier gates pass
(address present, base58-decoding to 32 bytes, coercible message, fresh
nonce), the result is the invalid-signature error, HTTP 400. -/
theorem sig_length_gate
    (o1 o2 : SigOracle) (sess : Option SiwsSession) (now : Int) (body : SiwsBody)
    (sg : List Nat)
    (hsg : coerce_to_bytes (body.signature.getD .null) = .ok sg)
    (h64 : sg.length ≠ 64) :
    siws_verify o1 sess now body = siws_verify o2 sess now body
    ∧ (∀ (a : String) (pk sm : List Nat),
        pyOr3 (body.accountAddress.getD .null) (body.publicKey.getD .null)
            (body.outputAddress.getD .null) = .str a →
        jsonTruthy (.str a) = true →
        coerce_to_bytes (body.signedMessage.getD .null) = .ok sm →
        nonceFails sess body.inputNonce now = false →
        b58decode (normalizeAddr a) = some pk →
        pk.length = 32 →
        siws_verify o1 sess now body = .ok .invalidSignature)
    ∧ siwsHttp (.ok .invalidSignature) = ("invalid signature", 400) := by
  refine ⟨(siws_verify_sig_ne64 o1 sess now body sg hsg h64).trans
      (siws_verify_sig_ne64 o2 sess now body sg hsg h64).symm, ?_, rfl⟩
  intro a pk sm haddr hat hsm hnf hpk hpk32
  rw [siws_verify_sig_ne64 o1 sess now body sg hsg h64]
  simp only [haddr, hat, Bool.not_true, Bool.false_eq_true, if_false, hsm, hnf, hpk]
  rw [if_neg (by simp [hpk32])]

/-- **C4 (witness).** -/
theorem sig_length_gate_witness :
    siws_verify (fun _ _ _ => true) (some ⟨"n1", 0⟩) 0
        ⟨some (.str "n1"), none, some (.str "11111111111111111111111111111111"), none,
         none, some (.arr [.num 1, .num 1])⟩
      = siws_verify (fun _ _ _ => false) (some ⟨"n1", 0⟩) 0
        ⟨some (.str "n1"), none, some (.str "11111111111111111111111111111111"), none,
         none, some (.arr [.num 1, .num 1])⟩
    ∧ siws_verify (fun _ _ _ => true) (some ⟨"n1", 0⟩) 0
        ⟨some (.str "n1"), none, some (.str "11111111111111111111111111111111"), none,
         none, some (.arr [.num 1, .num 1])⟩ = .ok .invalidSignature :=
  ⟨(sig_length_gate (fun _ _ _ => true) (fun _ _ _ => false) (some ⟨"n1", 0⟩) 0
      ⟨some (.str "n1"), none, some (.str "11111111111111111111111111111111"), none,
       none, some (.arr [.num 1, .num 1])⟩
      [1, 1] rfl (by decide)).1,
   (sig_length_gate (fun _ _ _ => true) (fun _ _ _ => false) (some ⟨"n1", 0⟩) 0
      ⟨some (.str "n1"), none, some (.str "11111111111111111111111111111111"), none,
       none, some (.arr [.num 1, .num 1])⟩
      [1, 1] rfl (by decide)).2.1 "11111111111111111111111111111111"
      (List.replicate 32 0) [] rfl rfl rfl (by decide) rfl (by decide)⟩

/-- The server-reconstructed legacy message always contains a newline. -/
theorem legacyMessage_has_newline (nonce : String) (ts : Int) (host : String) :
    '\n' ∈ (legacyMessage nonce ts host).data := by
  unfold legacyMessage
  simp only [String.data_append, List.mem_append]
  exact Or.inl (Or.inl (Or.inl (Or.inl (Or.inl (by decide)))))

/-- **C5 (counterexample).**  The legacy flow is not behaviorally
equivalent to the SIWS flow: on a fresh nonce with the invalid base58
address `"0I"` and a well-formed 64-byte signature, the legacy handler's
`base58.b58decode` raises outside the `except BadSignatureError` handler
(HTTP 500) while the SIWS handler catches the failure and returns
`("invalid address", 400)`. -/
theorem legacy_siws_divergence :
    legacyHttp (legacy_verify (fun _ _ _ => true) (some ("n", 0)) 0 "h" "0I"
        (b64encode (List.replicate 64 0)) "n")
      = ("internal server error", 500)
    ∧ siwsHttp (siws_verify (fun _ _ _ => true) (some ⟨"n", 0⟩) 0
        (legacyToSiwsBody "0I" (b64encode (List.replicate 64 0)) "n"
          (legacyMessage "n" 0 "h")))
      = ("invalid address", 400)
    ∧ (("internal server error", 500) : String × Nat) ≠ ("invalid address", 400) :=
  ⟨rfl, rfl, by decide⟩

/-- **C5 (amended).**  For well-formed credentials — an address that
base58-decodes to 32 bytes and a signature that strict-base64-decodes to 64
bytes — the legacy flow is behaviorally equivalent to the SIWS flow run on
the same credentials over the server-reconstructed message: the two
handlers produce the identical HTTP body and status (same acceptance, same
invalid-nonce rejection, same bad-signature rejection).  For malformed
credentials the flows diverge (legacy raises, HTTP 500, where SIWS returns
400), as the counterexample records. -/
theorem legacy_siws_equiv
    (oracle : SigOracle) (sn : String) (ts now : Int) (host pk sig nonce : String)
    (key sg : List Nat)
    (hpk : b58decode pk = some key) (hk32 : key.length = 32)
    (hsig : b64decode sig = some sg) (hs64 : sg.length = 64) :
    legacyHttp (legacy_verify oracle (some (sn, ts)) now host pk sig nonce)
      = siwsHttp (siws_verify oracle (some ⟨sn, ts⟩) now
          (legacyToSiwsBody pk sig nonce (legacyMessage nonce ts host))) := by
  have hmsg : coerce_to_bytes (.str (legacyMessage nonce ts host))
      = .ok (utf8Bytes (legacyMessage nonce ts host)) :=
    coerce_str_newline _ (legacyMessage_has_newline nonce ts host)
  have hsigc : coerce_to_bytes (.str sig) = .ok sg := by
    simp only [coerce_to_bytes, hsig]
  have hlen : b64decodeLenient sig = some sg := b64decodeLenient_of_strict sig sg hsig
  have hnorm : normalizeAddr pk = pk := b58decode_no_colon pk key hpk
  have htr : jsonTruthy (.str pk) = true := b58decode32_truthy pk key hpk hk32
  have haddr : pyOr3 Json.null (Json.str pk) Json.null = Json.str pk := by
    unfold pyOr3
    rw [htr]
    rfl
  have hnfiff : nonceFails (some ⟨sn, ts⟩) (some (.str nonce)) now = false
      ↔ (sn = nonce ∧ now - ts ≤ 300) := by
    simp only [nonceFails, Bool.or_eq_false_iff, Bool.not_eq_false', beq_iff_eq,
      decide_eq_false_iff_not, not_lt]
  by_cases hok : sn = nonce ∧ now - ts ≤ 300
  · have hnf : nonceFails (some ⟨sn, ts⟩) (some (.str nonce)) now = false := hnfiff.mpr hok
    have hsiws : siws_verify oracle (some ⟨sn, ts⟩) now
        (legacyToSiwsBody pk sig nonce (legacyMessage nonce ts host))
        = if oracle key (utf8Bytes (legacyMessage nonce ts host)) sg then
            .ok (.verified pk) else .ok .badSignature := by
      simp only [siws_verify, legacyToSiwsBody, Option.getD_none, Option.getD_some, haddr,
        htr, Bool.not_true, Bool.false_eq_true, if_false, hmsg, hsigc, hnf, hnorm, hpk]
      rw [if_neg (by simp [hk32]), if_neg (by simp [hs64])]
    have hleg : legacy_verify oracle (some (sn, ts)) now host pk sig nonce
        = if oracle key (utf8Bytes (legacyMessage nonce ts host)) sg then
            .ok (.verified pk) else .ok .badSignature := by
      simp only [legacy_verify]
      rw [if_neg (by push_neg; exact ⟨hok.1, by omega⟩)]
      simp only [hpk, hlen]
      rw [if_neg (by simp [hk32]), if_neg (by simp [hs64])]
    rw [hleg, hsiws]
    cases oracle key (utf8Bytes (legacyMessage nonce ts host)) sg <;> rfl
  · have hnf : nonceFails (some ⟨sn, ts⟩) (some (.str nonce)) now = true := by
      cases h : nonceFails (some ⟨sn, ts⟩) (some (.str nonce)) now with
      | true => rfl
      | false => exact absurd (hnfiff.mp h) hok
    have hsiws : siws_verify oracle (some ⟨sn, ts⟩) now
        (legacyToSiwsBody pk sig nonce (legacyMessage nonce ts host))
        = .ok .invalidNonce := by
      simp only [siws_verify, legacyToSiwsBody, Option.getD_none, Option.getD_some, haddr,
        htr, Bool.not_true, Bool.false_eq_true, if_false, hmsg, hsigc, hnf, if_true]
    have hleg : legacy_verify oracle (some (sn, ts)) now host pk sig nonce
        = .ok .invalidNonce := by
      simp only [legacy_verify]
      rw [if_pos ?_]
      rw [Classical.not_and_iff_or_not_not] at hok
      rcases hok with h | h
      · exact Or.inl h
      · exact Or.inr (by omega)
    rw [hleg, hsiws]
    rfl

/-- **C3.**  Merging well-formed `getSignatureStatuses` responses (each
carrying a context slot and a status array of common length `n`) produces,
at each index, the first non-null status across the upstreams in configured
order; the retained context is the one with the highest slot; the envelope
carries the original id.  The claim's example is the witness. -/
theorem merge_first_nonnull (u : Int × List Json) (us : List (Int × List Json))
    (oid : Json) (n : Nat) (hlen : ∀ v ∈ u :: us, v.2.length = n) :
    merge_signature_statuses ((u :: us).map (fun v => wfResp v.1 v.2)) oid
      = .ok (.obj [("jsonrpc", .str "2.0"),
          ("result", .obj [("context", .obj [("slot",
              .num (maxSlot u.1 (us.map Prod.fst)))]),
            ("value", .arr (mergedSpec (u :: us) n))]),
          ("id", oid)])
    ∧ (∀ s ∈ (u :: us).map Prod.fst, s ≤ maxSlot u.1 (us.map Prod.fst))
    ∧ (maxSlot u.1 (us.map Prod.fst) ∈ (u :: us).map Prod.fst) := by
  have hu : u.2.length = n := hlen u (by simp)
  refine ⟨?_, ?_, ?_⟩
  · have hstep := mergeStep_wf_first (.str "2.0") u.1 u.2
    have hm1len : (mergeVals (List.replicate u.2.length .null) u.2).length = n := by
      rw [mergeVals_length _ _ (by simp)]
      simp [hu]
    have hrest : ∀ w ∈ us, w.2.length ≤ (mergeVals (List.replicate u.2.length .null) u.2).length := by
      intro w hw
      rw [hm1len, hlen w (by simp [hw])]
    have hfold := foldMerge_wf us (.str "2.0") u.1
      (mergeVals (List.replicate u.2.length .null) u.2) hrest
    have hvals : us.foldl (fun acc v => mergeVals acc v.2)
        (mergeVals (List.replicate u.2.length .null) u.2) = mergedSpec (u :: us) n := by
      have hrepl : (List.replicate n Json.null) = (List.range n).map (fun _ => Json.null) := by
        simp [List.map_const', List.length_range]
      have hcons : (u :: us).foldl (fun acc v => mergeVals acc v.2) (List.replicate n Json.null)
          = us.foldl (fun acc v => mergeVals acc v.2)
              (mergeVals (List.replicate u.2.length .null) u.2) := by
        rw [hu]
        rfl
      rw [← hcons, hrepl, foldMergeVals_range (u :: us) n _ hlen]
      unfold mergedSpec
      apply List.map_congr_left
      intro i _
      simp [Json.isNull]
    simp only [List.map_cons, merge_signature_statuses, foldMerge, hstep, hfold, hvals,
      Option.getD_some]
  · intro s hs
    rw [List.map_cons] at hs
    rcases List.mem_cons.mp hs with h | h
    · exact le_maxSlot (us.map Prod.fst) u.1 s (Or.inl h)
    · exact le_maxSlot (us.map Prod.fst) u.1 s (Or.inr h)
  · rw [List.map_cons]
    rcases maxSlot_mem (us.map Prod.fst) u.1 with h | h
    · rw [h]
      exact List.mem_cons_self u.1 (us.map Prod.fst)
    · exact List.mem_cons_of_mem u.1 h

/-- **C3 (witness).**  The claim's example: upstream A answers
`[null, "ok2", null]` with slot 5, upstream B answers `["ok1", null, null]`
with slot 3 (A configured before B); the merge yields
`["ok1", "ok2", null]` with A's context. -/
theorem merge_first_nonnull_witness :
    merge_signature_statuses
        [wfResp 5 [Json.null, Json.str "ok2", Json.null],
         wfResp 3 [Json.str "ok1", Json.null, Json.null]] (.num 9)
      = .ok (.obj [("jsonrpc", .str "2.0"),
          ("result", .obj [("context", .obj [("slot", .num 5)]),
            ("value", .arr [Json.str "ok1", Json.str "ok2", Json.null])]),
          ("id", .num 9)]) :=
  (merge_first_nonnull (5, [Json.null, Json.str "ok2", Json.null])
    [(3, [Json.str "ok1", Json.null, Json.null])] (.num 9) 3 (by decide)).1

/-- **C8 (counterexample).**  A policy-rejected single request with id 1
receives an envelope whose id field is `null`, not the original id: the
code builds the 403 rejection with `"id": None`. -/
theorem policy_rejection_id_null :
    (rpc_proxy ⟨["u1"], ⟨[], none⟩⟩
        (.obj [("jsonrpc", .str "2.0"), ("method", .str "deleteAccount"), ("id", .num 1)])
        [] []).result
      = .ok (.obj [("jsonrpc", .str "2.0"),
          ("error", .obj [("code", .num (-32601)),
            ("message", .str "Method deleteAccount not allowed by proxy policy")]),
          ("id", Json.null)], 403)
    ∧ getKey [("jsonrpc", .str "2.0"),
        ("error", .obj [("code", .num (-32601)),
          ("message", .str "Method deleteAccount not allowed by proxy policy")]),
        ("id", Json.null)] "id" = some Json.null
    ∧ Json.null ≠ Json.num 1 :=
  ⟨rfl, rfl, fun h => Json.noConfusion h⟩

/-- **C8 (amended).**  For a single (dict) request that passes the method
policy, every error envelope the gateway itself synthesizes on the
upstream path — upstream timeout (504), upstream transport error (502),
invalid upstream JSON (502), and the race's all-upstreams-failed (502) —
carries the original request's id; the policy-rejection envelope instead
carries `null`, as the counterexample records. -/
theorem synthesized_envelopes_echo_id
    (cfg : ProxyConfig) (kvs : List (String × Json)) (net : List NetResult)
    (order : List Nat)
    (hpol : firstBlocked cfg.policy (methodsFrom (.obj kvs)) = .ok none) :
    (((isMethodStr (getKey kvs "method") "sendTransaction"
        || isMethodStr (getKey kvs "method") "requestAirdrop")
        && decide (cfg.upstreams.length > 1)) = false →
      (isMethodStr (getKey kvs "method") "getSignatureStatuses"
        && decide (cfg.upstreams.length > 1)) = false →
      (net.headD .err = .timeout →
        (rpc_proxy cfg (.obj kvs) net order).result
          = .ok (errEnvelope 504 "Upstream timeout" ((getKey kvs "id").getD .null), 504))
      ∧ (net.headD .err = .err →
        (rpc_proxy cfg (.obj kvs) net order).result
          = .ok (errEnvelope 502 "Upstream error" ((getKey kvs "id").getD .null), 502))
      ∧ (∀ r, net.headD .err = .resp r → r.body = none →
        (rpc_proxy cfg (.obj kvs) net order).result
          = .ok (errEnvelope 502 "Invalid JSON from upstream"
              ((getKey kvs "id").getD .null), 502)))
    ∧ (((isMethodStr (getKey kvs "method") "sendTransaction"
        || isMethodStr (getKey kvs "method") "requestAirdrop")
        && decide (cfg.upstreams.length > 1)) = true →
      raceScan (net.map netToOpt) order = none →
      (rpc_proxy cfg (.obj kvs) net order).result
        = .ok (errEnvelope 502 "All upstreams failed" ((getKey kvs "id").getD .null), 502)) := by
  constructor
  · intro hc1 hc2
    refine ⟨?_, ?_, ?_⟩
    · intro hn
      simp only [rpc_proxy, hpol, hc1, hc2, Bool.false_eq_true, if_false, defaultDispatch, hn]
    · intro hn
      simp only [rpc_proxy, hpol, hc1, hc2, Bool.false_eq_true, if_false, defaultDispatch, hn]
    · intro r hn hb
      simp only [rpc_proxy, hpol, hc1, hc2, Bool.false_eq_true, if_false, defaultDispatch,
        hn, hb]
  · intro hc1 hrs
    simp only [rpc_proxy, hpol, hc1, if_true, hrs]

/-- **C8 (witness).** -/
theorem synthesized_envelopes_echo_id_witness :
    firstBlocked ⟨[], none⟩
        (methodsFrom (.obj [("method", .str "getBalance"), ("id", .num 3)])) = .ok none
    ∧ (rpc_proxy ⟨["u1"], ⟨[], none⟩⟩
        (.obj [("method", .str "getBalance"), ("id", .num 3)]) [.timeout] []).result
      = .ok (errEnvelope 504 "Upstream timeout" (.num 3), 504) :=
  ⟨rfl, by
    have h := (synthesized_envelopes_echo_id ⟨["u1"], ⟨[], none⟩⟩
      [("method", .str "getBalance"), ("id", .num 3)] [.timeout] [] rfl).1
      (by decide) (by decide)
    exact h.1 rfl⟩

/-- **C9.**  A batch (array) request never triggers any fanout strategy:
when its methods pass the policy it is dispatched verbatim to the primary
upstream exactly once, and in every case at most one upstream call is
made. -/
theorem batch_primary_only (cfg : ProxyConfig) (items : List Json)
    (net : List NetResult) (order : List Nat) :
    (firstBlocked cfg.policy (methodsFrom (.arr items)) = .ok none →
      (rpc_proxy cfg (.arr items) net order).calls
        = [(cfg.upstreams.headD "", .arr items)])
    ∧ (rpc_proxy cfg (.arr items) net order).calls.length ≤ 1 := by
  constructor
  · intro hpol
    simp only [rpc_proxy, hpol, defaultDispatch]
  · cases hb : firstBlocked cfg.policy (methodsFrom (.arr items)) with
    | error e => simp [rpc_proxy, hb]
    | ok o =>
      cases o with
      | none => simp [rpc_proxy, hb, defaultDispatch]
      | some m => simp [rpc_proxy, hb]

/-- **C9 (witness).**  A batch containing `sendTransaction` with two
configured upstreams still goes only to the primary. -/
theorem batch_primary_only_witness :
    firstBlocked ⟨[], none⟩
        (methodsFrom (.arr [.obj [("method", .str "sendTransaction"), ("id", .num 1)]]))
      = .ok none
    ∧ (rpc_proxy ⟨["u1", "u2"], ⟨[], none⟩⟩
        (.arr [.obj [("method", .str "sendTransaction"), ("id", .num 1)]])
        [.resp ⟨true, 200, some (.obj [("result", .str "sig")])⟩] []).calls
      = [("u1", .arr [.obj [("method", .str "sendTransaction"), ("id", .num 1)]])] :=
  ⟨rfl,
   (batch_primary_only ⟨["u1", "u2"], ⟨[], none⟩⟩
     [.obj [("method", .str "sendTransaction"), ("id", .num 1)]]
     [.resp ⟨true, 200, some (.obj [("result", .str "sig")])⟩] []).1 rfl⟩

/-- A response that is a transport failure or has an unparsable body is
skipped by the merge loop. -/
theorem mergeStep_harmless (st : MergeState) (x : Option Resp)
    (h : x = none ∨ ∃ r, x = some r ∧ r.body = none) : mergeStep st x = .ok st := by
  rcases h with rfl | ⟨r, rfl, hb⟩
  · rfl
  · cases hok : r.ok with
    | false => simp [mergeStep, hok]
    | true => simp [mergeStep, hok, hb]

/-- The whole merge fold is the identity over such responses. -/
theorem foldMerge_harmless : ∀ (rs : List (Option Resp)) (st : MergeState),
    (∀ x ∈ rs, x = none ∨ ∃ r, x = some r ∧ r.body = none) → foldMerge st rs = .ok st
  | [], _, _ => rfl
  | x :: rs, st, h => by
      simp only [foldMerge, mergeStep_harmless st x (h x (by simp))]
      exact foldMerge_harmless rs st (fun y hy => h y (by simp [hy]))

/-- The fallback loop also finds nothing among such responses. -/
theorem fallbackScan_harmless : ∀ (rs : List (Option Resp)),
    (∀ x ∈ rs, x = none ∨ ∃ r, x = some r ∧ r.body = none) → fallbackScan rs = none
  | [], _ => rfl
  | x :: rs, h => by
      rcases h x (by simp) with rfl | ⟨r, rfl, hb⟩
      · simp only [fallbackScan]
        exact fallbackScan_harmless rs (fun y hy => h y (by simp [hy]))
      · simp only [fallbackScan, hb]
        exact fallbackScan_harmless rs (fun y hy => h y (by simp [hy]))

/-- When every upstream fails at transport or returns an unparsable body,
the merge synthesizes the empty baseline bound to the original id. -/
theorem merge_all_failed_empty (rs : List (Option Resp)) (oid : Json)
    (h : ∀ x ∈ rs, x = none ∨ ∃ r, x = some r ∧ r.body = none) :
    merge_signature_statuses rs oid
      = .ok (.obj [("jsonrpc", .str "2.0"),
          ("result", .obj [("context", .obj []), ("value", .arr [])]),
          ("id", oid)]) := by
  simp only [merge_signature_statuses, foldMerge_harmless rs _ h, fallbackScan_harmless rs h,
    Option.getD_none]

/-- **C10 (counterexample).**  The merge path is not always HTTP 200: an
upstream body `{"result": 5}` makes `"value" in j["result"]` raise an
uncaught `TypeError` (membership test on an `int`), so the request crashes
(framework 500) instead of returning 200. -/
theorem merge_noncontainer_result_raises :
    (rpc_proxy ⟨["u1", "u2"], ⟨[], none⟩⟩
        (.obj [("jsonrpc", .str "2.0"), ("method", .str "getSignatureStatuses"),
               ("id", .num 7)])
        [.resp ⟨true, 200, some (.obj [("result", .num 5)])⟩,
         .resp ⟨true, 200, some (.obj [("result", .num 5)])⟩] []).result
      = .error .typeError
    ∧ pyStatus (rpc_proxy ⟨["u1", "u2"], ⟨[], none⟩⟩
        (.obj [("jsonrpc", .str "2.0"), ("method", .str "getSignatureStatuses"),
               ("id", .num 7)])
        [.resp ⟨true, 200, some (.obj [("result", .num 5)])⟩,
         .resp ⟨true, 200, some (.obj [("result", .num 5)])⟩] []).result = 500
    ∧ (500 : Nat) ≠ 200 :=
  ⟨rfl, rfl, by decide⟩

/-- **C10 (amended).**  For a multi-upstream `getSignatureStatuses`
request passing the policy, if every upstream call fails at transport or
returns a non-JSON body, the gateway answers HTTP 200 with a synthesized
empty value array and the original id.  A parsable but malformed body
whose `result` field is not a container instead raises an uncaught
`TypeError` (HTTP 500), as the counterexample records. -/
theorem merge_path_failures_200
    (cfg : ProxyConfig) (kvs : List (String × Json)) (net : List NetResult)
    (order : List Nat)
    (hpol : firstBlocked cfg.policy (methodsFrom (.obj kvs)) = .ok none)
    (hm : getKey kvs "method" = some (.str "getSignatureStatuses"))
    (hup : cfg.upstreams.length > 1)
    (hnet : ∀ x ∈ net, netToOpt x = none ∨ ∃ r, x = .resp r ∧ r.body = none) :
    (rpc_proxy cfg (.obj kvs) net order).result
      = .ok (.obj [("jsonrpc", .str "2.0"),
          ("result", .obj [("context", .obj []), ("value", .arr [])]),
          ("id", (getKey kvs "id").getD .null)], 200) := by
  have hh : ∀ x ∈ net.map netToOpt, x = none ∨ ∃ r, x = some r ∧ r.body = none := by
    intro x hx
    rcases List.mem_map.mp hx with ⟨y, hy, rfl⟩
    rcases hnet y hy with h | ⟨r, rfl, hb⟩
    · exact Or.inl h
    · exact Or.inr ⟨r, rfl, hb⟩
  have hc1 : ((isMethodStr (some (Json.str "getSignatureStatuses")) "sendTransaction"
      || isMethodStr (some (Json.str "getSignatureStatuses")) "requestAirdrop")
      && decide (cfg.upstreams.length > 1)) = false := by
    simp [isMethodStr]
  have hc2 : (isMethodStr (some (Json.str "getSignatureStatuses")) "getSignatureStatuses"
      && decide (cfg.upstreams.length > 1)) = true := by
    simp [isMethodStr, hup]
  simp only [rpc_proxy, hpol, hm, hc1, hc2, Bool.false_eq_true, if_false, if_true]
  rw [merge_all_failed_empty (net.map netToOpt) _ hh]

/-- **C10 (witness).** -/
theorem merge_path_failures_200_witness :
    (rpc_proxy ⟨["u1", "u2"], ⟨[], none⟩⟩
        (.obj [("method", .str "getSignatureStatuses"), ("id", .num 7)])
        [.timeout, .err] []).result
      = .ok (.obj [("jsonrpc", .str "2.0"),
          ("result", .obj [("context", .obj []), ("value", .arr [])]),
          ("id", .num 7)], 200) := by
  have h := merge_path_failures_200 ⟨["u1", "u2"], ⟨[], none⟩⟩
    [("method", .str "getSignatureStatuses"), ("id", .num 7)]
    [.timeout, .err] [] rfl rfl (by decide)
    (fun x hx => by
      rcases List.mem_cons.mp hx with rfl | hx2
      · exact Or.inl rfl
      · rcases List.mem_cons.mp hx2 with rfl | hx3
        · exact Or.inl rfl
        · exact absurd hx3 (List.not_mem_nil x))
  exact h

/-- **C5 (witness).** -/
theorem legacy_siws_equiv_witness :
    b58decode "11111111111111111111111111111111" = some (List.replicate 32 0)
    ∧ (List.replicate 32 0).length = 32
    ∧ b64decode (b64encode (List.replicate 64 0)) = some (List.replicate 64 0)
    ∧ (List.replicate 64 0).length = 64
    ∧ legacyHttp (legacy_verify (fun _ _ _ => true) (some ("n2", 0)) 100 "example.com"
          "11111111111111111111111111111111" (b64encode (List.replicate 64 0)) "n2")
        = siwsHttp (siws_verify (fun _ _ _ => true) (some ⟨"n2", 0⟩) 100
            (legacyToSiwsBody "11111111111111111111111111111111"
              (b64encode (List.replicate 64 0)) "n2" (legacyMessage "n2" 0 "example.com"))) :=
  ⟨rfl, by decide, rfl, by decide,
   legacy_siws_equiv (fun _ _ _ => true) "n2" 0 100 "example.com"
     "11111111111111111111111111111111" (b64encode (List.replicate 64 0)) "n2"
     (List.replicate 32 0) (List.replicate 64 0) rfl (by decide) rfl (by decide)⟩

end Siws
